import Mathlib

/-!
A verification development for the `rdns` DNS wire-format codec
(`src/server/buffer.rs` and `src/server/protocol.rs`).

The Rust sources are shallowly embedded:
* machine integers (`u8`/`u16`/`u32`/`usize`) are modelled as `Nat`, with an
  explicit `% 2^w` at every point where the Rust code performs a narrowing
  cast (`as u8`, `as u16`) or where `u8` arithmetic may wrap (`opcode << 3`);
* Rust `String`/`&str` values are modelled as their UTF-8 byte sequences
  (`List Nat`), since all length checks and splitting in the source operate
  on raw bytes;
* `std::io::Result` is modelled by the `Res` type below.  Both error values
  constructed by the source carry `ErrorKind::InvalidInput`; they are
  distinguished by their message strings, so the embedding models the two
  messages ("End of Buffer" and "Single label exceeds 63 chars") as the two
  constructors of `DnsErr`;
* the decode loop of `read_qname` has no termination guarantee in the
  source, so it is embedded with an explicit fuel parameter; exhausting the
  fuel yields the extra result `Res.hang`, which models non-termination.
-/

set_option maxHeartbeats 1000000
set_option maxRecDepth 40000

/-- The two error conditions produced by the source.  `endOfBuffer` models
`Error::new(ErrorKind::InvalidInput, "End of Buffer")` (the bounds-check
failure of every buffer primitive); `labelTooLong` models
`Error::new(ErrorKind::InvalidInput, "Single label exceeds 63 chars")`
(the label-length check in `write_qname`). -/
inductive DnsErr where
  | endOfBuffer
  | labelTooLong
deriving DecidableEq

/-- Result of an embedded operation: `ok`/`err` model `std::io::Result`;
`hang` models a computation that runs out of fuel, i.e. whose Rust
counterpart does not terminate. -/
inductive Res (α : Type) where
  | ok (a : α)
  | err (e : DnsErr)
  | hang
deriving DecidableEq

def Res.bind {α β : Type} : Res α → (α → Res β) → Res β
  | .ok a, f => f a
  | .err e, _ => .err e
  | .hang, _ => .hang

instance : Monad Res where
  pure := Res.ok
  bind := Res.bind

/-- `BytePacketBuffer` from `buffer.rs`: a 512-byte array plus a cursor.
The byte array is a `List Nat` of length 512 whose entries are kept below
256 by construction (writes store `val % 256`, modelling the `u8` type of
the stored values). -/
structure BytePacketBuffer where
  buf : List Nat
  pos : Nat
deriving DecidableEq

/-- `BytePacketBuffer::new`: a zero-filled buffer with the cursor at 0. -/
def BytePacketBuffer.new : BytePacketBuffer :=
  { buf := List.replicate 512 0, pos := 0 }

/-- `get(pos)`: random-access read; fails when `pos >= 512`. -/
def BytePacketBuffer.get (b : BytePacketBuffer) (pos : Nat) : Res Nat :=
  if 512 ≤ pos then .err .endOfBuffer else .ok (b.buf.getD pos 0)

/-- `get_range(start, len)`: returns `buf[start..start+len]`; fails when
`start + len >= 512` (note: `>=`, exactly as in the source). -/
def BytePacketBuffer.getRange (b : BytePacketBuffer) (start len : Nat) :
    Res (List Nat) :=
  if 512 ≤ start + len then .err .endOfBuffer
  else .ok ((b.buf.drop start).take len)

/-- `read()`: sequential read; fails when the cursor is at or past 512,
otherwise returns the byte under the cursor and advances the cursor. -/
def BytePacketBuffer.read (b : BytePacketBuffer) : Res (Nat × BytePacketBuffer) :=
  if 512 ≤ b.pos then .err .endOfBuffer
  else .ok (b.buf.getD b.pos 0, { b with pos := b.pos + 1 })

/-- `write(val)`: sequential write; fails when the cursor is at or past 512,
otherwise stores `val` (a `u8`, hence the `% 256`) and advances the cursor. -/
def BytePacketBuffer.write (b : BytePacketBuffer) (val : Nat) :
    Res BytePacketBuffer :=
  if 512 ≤ b.pos then .err .endOfBuffer
  else .ok { b with buf := b.buf.set b.pos (val % 256), pos := b.pos + 1 }

/-- `set(pos, val)`: random-access write; fails when `pos >= 512`. -/
def BytePacketBuffer.set (b : BytePacketBuffer) (pos val : Nat) :
    Res BytePacketBuffer :=
  if 512 ≤ pos then .err .endOfBuffer
  else .ok { b with buf := b.buf.set pos (val % 256) }

/-- `seek(pos)`: absolute cursor move, no bounds check, never fails. -/
def BytePacketBuffer.seek (b : BytePacketBuffer) (pos : Nat) :
    Res BytePacketBuffer :=
  .ok { b with pos := pos }

/-- `step(steps)`: relative cursor move, no bounds check, never fails. -/
def BytePacketBuffer.step (b : BytePacketBuffer) (steps : Nat) :
    Res BytePacketBuffer :=
  .ok { b with pos := b.pos + steps }

/-- `set_u16(pos, val)`: big-endian 16-bit random-access write (the
`as u8` casts are absorbed by `set`'s `% 256`). -/
def BytePacketBuffer.setU16 (b : BytePacketBuffer) (pos val : Nat) :
    Res BytePacketBuffer := do
  let b ← b.set pos (val >>> 8)
  let b ← b.set (pos + 1) (val &&& 0xFF)
  pure b

/-- `write_u16(val)`: big-endian 16-bit sequential write. -/
def BytePacketBuffer.writeU16 (b : BytePacketBuffer) (val : Nat) :
    Res BytePacketBuffer := do
  let b ← b.write ((val >>> 8) &&& 0xFF)
  let b ← b.write ((val >>> 0) &&& 0xFF)
  pure b

/-- `write_u32(val)`: big-endian 32-bit sequential write. -/
def BytePacketBuffer.writeU32 (b : BytePacketBuffer) (val : Nat) :
    Res BytePacketBuffer := do
  let b ← b.write ((val >>> 24) &&& 0xFF)
  let b ← b.write ((val >>> 16) &&& 0xFF)
  let b ← b.write ((val >>> 8) &&& 0xFF)
  let b ← b.write ((val >>> 0) &&& 0xFF)
  pure b

/-- `read_u16()`: big-endian 16-bit sequential read. -/
def BytePacketBuffer.readU16 (b : BytePacketBuffer) :
    Res (Nat × BytePacketBuffer) := do
  let (hi, b) ← b.read
  let (lo, b) ← b.read
  pure ((hi <<< 8) ||| (lo <<< 0), b)

/-- `read_u32()`: big-endian 32-bit sequential read. -/
def BytePacketBuffer.readU32 (b : BytePacketBuffer) :
    Res (Nat × BytePacketBuffer) := do
  let (b3, b) ← b.read
  let (b2, b) ← b.read
  let (b1, b) ← b.read
  let (b0, b) ← b.read
  pure ((b3 <<< 24) ||| (b2 <<< 16) ||| (b1 <<< 8) ||| (b0 <<< 0), b)

/-- The byte-wise `for b in label.as_bytes() { self.write(*b)?; }` loop. -/
def writeAll : List Nat → BytePacketBuffer → Res BytePacketBuffer
  | [], b => .ok b
  | v :: rest, b => do
    let b ← b.write v
    writeAll rest b

/-- Rust `str::split('.')` on a UTF-8 byte sequence (46 is the byte of
the dot).  Like the Rust iterator it yields one (possibly empty) segment
more than the number of separators; in particular it yields `[[]]` on the
empty string. -/
def splitOnDot : List Nat → List (List Nat)
  | [] => [[]]
  | c :: rest =>
    if c = 46 then [] :: splitOnDot rest
    else
      match splitOnDot rest with
      | [] => [[c]]
      | l :: ls => (c :: l) :: ls

/-- The per-label loop of `write_qname`: checks the 63-byte label limit
before writing the length byte and the label bytes. -/
def writeLabels : List (List Nat) → BytePacketBuffer → Res BytePacketBuffer
  | [], b => .ok b
  | label :: rest, b =>
    if 63 < label.length then .err .labelTooLong
    else do
      let b ← b.write label.length
      let b ← writeAll label b
      writeLabels rest b

/-- `write_qname(qname)`: split on dots and write each label.  Note that,
exactly as in the source, no terminating zero byte is written after the
last label. -/
def writeQname (b : BytePacketBuffer) (qname : List Nat) :
    Res BytePacketBuffer :=
  writeLabels (splitOnDot qname) b

/-- Byte-level model of
`String::from_utf8_lossy(label).to_lowercase()` as applied to one byte:
ASCII uppercase letters are mapped to lowercase.  This is exact for ASCII
label bytes (every concrete input in this development is ASCII). -/
def lowerByte (c : Nat) : Nat :=
  if 65 ≤ c ∧ c ≤ 90 then c + 32 else c

/-- The jump-target computation of `read_qname`:
`(((len as u16) ^ 0xC0) << 8) | next_byte`. -/
def jumpTarget (len nextByte : Nat) : Nat :=
  ((len ^^^ 0xC0) <<< 8) ||| nextByte

/-- The `loop` body of `read_qname`, with fuel.  `pos` is the local read
offset, `delim` the pending separator, `jumped` the first-jump flag and
`acc` the accumulator string (`outstr`).  The buffer `b` is only mutated
by the `seek(pos + 2)` on the first pointer and by the final
`seek(pos)` when no jump occurred. -/
def readQnameLoop :
    Nat → BytePacketBuffer → Nat → List Nat → Bool → List Nat →
    Res (List Nat × BytePacketBuffer)
  | 0, _, _, _, _, _ => .hang
  | fuel + 1, b, pos, delim, jumped, acc =>
    match b.get pos with
    | .err e => .err e
    | .hang => .hang
    | .ok len =>
      if len &&& 0xC0 = 0xC0 then
        -- compression pointer: fix the real cursor on the first jump only
        let b1 := if !jumped then { b with pos := pos + 2 } else b
        match b1.get (pos + 1) with
        | .err e => .err e
        | .hang => .hang
        | .ok nextByte =>
          readQnameLoop fuel b1 (jumpTarget len nextByte) delim true acc
      else
        -- move one past the length byte
        if len = 0 then
          -- end of name: seek one past the zero byte unless we jumped
          .ok (acc, if jumped then b else { b with pos := pos + 1 })
        else
          match b.getRange (pos + 1) len with
          | .err e => .err e
          | .hang => .hang
          | .ok label =>
            readQnameLoop fuel b (pos + 1 + len) [46] jumped
              (acc ++ delim ++ label.map lowerByte)

/-- `read_qname(outstr)`: decode a name starting at the buffer's cursor,
appending to `outstr`. -/
def readQname (fuel : Nat) (b : BytePacketBuffer) (outstr : List Nat) :
    Res (List Nat × BytePacketBuffer) :=
  readQnameLoop fuel b b.pos [] false outstr

/-- Observer used to state the cursor contract of `read_qname`: scan the
label chain from `pos` and report either the offset of the first
compression-pointer byte (`Sum.inl`) or the offset one past the
terminating zero byte (`Sum.inr`). -/
def nameScan (buf : List Nat) : Nat → Nat → Option (Nat ⊕ Nat)
  | 0, _ => none
  | fuel + 1, pos =>
    let len := buf.getD pos 0
    if len &&& 0xC0 = 0xC0 then some (Sum.inl pos)
    else if len = 0 then some (Sum.inr (pos + 1))
    else nameScan buf fuel (pos + 1 + len)

/-- `ResultCode` from `protocol.rs`. -/
inductive ResultCode where
  | NOERROR
  | FORMERR
  | SERVFAIL
  | NXDOMAIN
  | NOTIMP
  | REFUSED
deriving DecidableEq

/-- The discriminant values of `ResultCode` (`NOERROR = 0`, ...,
`REFUSED = 5`), used by the `as u8` cast in `DNSHeader::write`. -/
def ResultCode.toNum : ResultCode → Nat
  | .NOERROR => 0
  | .FORMERR => 1
  | .SERVFAIL => 2
  | .NXDOMAIN => 3
  | .NOTIMP => 4
  | .REFUSED => 5

/-- `ResultCode::from_num`: any value other than 1..5 maps to `NOERROR`. -/
def ResultCode.fromNum (num : Nat) : ResultCode :=
  if num = 1 then .FORMERR
  else if num = 2 then .SERVFAIL
  else if num = 3 then .NXDOMAIN
  else if num = 4 then .NOTIMP
  else if num = 5 then .REFUSED
  else .NOERROR

/-- `QueryType` from `protocol.rs`. -/
inductive QueryType where
  | UNKNOWN (x : Nat)
  | A
  | NS
  | CNAME
  | SOA
  | MX
  | TXT
  | AAAA
  | SRV
  | OPT
deriving DecidableEq

/-- `QueryType::to_num`. -/
def QueryType.toNum : QueryType → Nat
  | .UNKNOWN x => x
  | .A => 1
  | .NS => 2
  | .CNAME => 5
  | .SOA => 6
  | .MX => 15
  | .TXT => 16
  | .AAAA => 28
  | .SRV => 33
  | .OPT => 44

/-- `QueryType::from_num`. -/
def QueryType.fromNum (num : Nat) : QueryType :=
  if num = 1 then .A
  else if num = 2 then .NS
  else if num = 5 then .CNAME
  else if num = 6 then .SOA
  else if num = 15 then .MX
  else if num = 16 then .TXT
  else if num = 28 then .AAAA
  else if num = 33 then .SRV
  else if num = 44 then .OPT
  else .UNKNOWN num

/-- `DNSHeader` from `protocol.rs`.  The `u16` fields (`id` and the four
counts) and the `u8` field `opcode` are modelled as `Nat`; well-formed
values are characterised by `DNSHeader.WF` below. -/
structure DNSHeader where
  id : Nat
  response : Bool
  opcode : Nat
  authoritative_answer : Bool
  truncated_message : Bool
  recursion_desired : Bool
  recursion_available : Bool
  z : Bool
  checking_disabled : Bool
  authed_data : Bool
  rescode : ResultCode
  questions : Nat
  answers : Nat
  authoritative_entries : Nat
  additional_entries : Nat
deriving DecidableEq

/-- `DNSHeader::new`: all fields zero / false / `NOERROR`. -/
def DNSHeader.new : DNSHeader :=
  { id := 0, response := false, opcode := 0, authoritative_answer := false,
    truncated_message := false, recursion_desired := false,
    recursion_available := false, z := false, checking_disabled := false,
    authed_data := false, rescode := .NOERROR, questions := 0, answers := 0,
    authoritative_entries := 0, additional_entries := 0 }

/-- The numeric fields of a `DNSHeader` stay inside their Rust integer
types: `id` and the four counts are `u16`, `opcode` is a `u8`. -/
def DNSHeader.WF (h : DNSHeader) : Prop :=
  h.id < 65536 ∧ h.opcode < 256 ∧ h.questions < 65536 ∧ h.answers < 65536 ∧
  h.authoritative_entries < 65536 ∧ h.additional_entries < 65536

/-- `bool as u8`. -/
def b2n (b : Bool) : Nat := cond b 1 0

/-- The first flags byte assembled by `DNSHeader::write`:
`(recursion_desired << 0) | (truncated << 1) | (authoritative << 2)
| (opcode << 3) | (response << 7)`.  `self.opcode << 3` is `u8`
arithmetic in the source, hence the `% 256`. -/
def flagByteA (h : DNSHeader) : Nat :=
  (b2n h.recursion_desired <<< 0)
    ||| (b2n h.truncated_message <<< 1)
    ||| (b2n h.authoritative_answer <<< 2)
    ||| ((h.opcode <<< 3) % 256)
    ||| (b2n h.response <<< 7)

/-- The second flags byte assembled by `DNSHeader::write`:
`rescode | (checking_disabled << 4) | (authed_data << 5) | (z << 6)
| (recursion_available << 7)`. -/
def flagByteB (h : DNSHeader) : Nat :=
  h.rescode.toNum
    ||| (b2n h.checking_disabled <<< 4)
    ||| (b2n h.authed_data <<< 5)
    ||| (b2n h.z <<< 6)
    ||| (b2n h.recursion_available <<< 7)

/-- `DNSHeader::write`: 12 bytes — id, two flag bytes, four counts. -/
def DNSHeader.write (h : DNSHeader) (b : BytePacketBuffer) :
    Res BytePacketBuffer := do
  let b ← b.writeU16 h.id
  let b ← b.write (flagByteA h)
  let b ← b.write (flagByteB h)
  let b ← b.writeU16 h.questions
  let b ← b.writeU16 h.answers
  let b ← b.writeU16 h.authoritative_entries
  let b ← b.writeU16 h.additional_entries
  pure b

/-- `DNSHeader::read`: the inverse unpacking.  The source reads into
`&mut self`, assigning every field; the embedding returns the freshly
assembled header.  The `as u8` casts on the two flag bytes are the
explicit `% 256`. -/
def DNSHeader.read (b : BytePacketBuffer) :
    Res (DNSHeader × BytePacketBuffer) := do
  let (id, b) ← b.readU16
  let (flags, b) ← b.readU16
  let a := (flags >>> 8) % 256
  let bb := flags &&& 0xFF
  let (questions, b) ← b.readU16
  let (answers, b) ← b.readU16
  let (authoritative_entries, b) ← b.readU16
  let (additional_entries, b) ← b.readU16
  pure
    ({ id := id
       recursion_desired := (a &&& (1 <<< 0)) != 0
       truncated_message := (a &&& (1 <<< 1)) != 0
       authoritative_answer := (a &&& (1 <<< 2)) != 0
       opcode := (a >>> 3) &&& 0x0F
       response := (a &&& (1 <<< 7)) != 0
       rescode := ResultCode.fromNum (bb &&& 0x0F)
       checking_disabled := (bb &&& (1 <<< 4)) != 0
       authed_data := (bb &&& (1 <<< 5)) != 0
       z := (bb &&& (1 <<< 6)) != 0
       recursion_available := (bb &&& (1 <<< 7)) != 0
       questions := questions
       answers := answers
       authoritative_entries := authoritative_entries
       additional_entries := additional_entries }, b)

/-- `DNSQuestion` from `protocol.rs`; the name is its UTF-8 byte list. -/
structure DNSQuestion where
  name : List Nat
  q_type : QueryType
deriving DecidableEq

/-- `DNSQuestion::read` (reads into a question freshly created with an
empty name, as `DNSPacket::from_buffer` does): name, type, discarded
class. -/
def DNSQuestion.read (fuel : Nat) (b : BytePacketBuffer) :
    Res (DNSQuestion × BytePacketBuffer) := do
  let (name, b) ← readQname fuel b []
  let (t, b) ← b.readU16
  let (_cls, b) ← b.readU16
  pure ({ name := name, q_type := QueryType.fromNum t }, b)

/-- `DNSQuestion::write`: name, type, class = 1. -/
def DNSQuestion.write (q : DNSQuestion) (b : BytePacketBuffer) :
    Res BytePacketBuffer := do
  let b ← writeQname b q.name
  let b ← b.writeU16 q.q_type.toNum
  let b ← b.writeU16 1
  pure b

/-- `TransientTTL`: a `u32` wrapper. -/
structure TransientTTL where
  val : Nat
deriving DecidableEq

/-- `PartialEq for TransientTTL`: always `true`, whatever the values. -/
def ttlEq (_ _ : TransientTTL) : Bool := true

/-- `Hash for TransientTTL`: the `hash` body is empty, so the hasher
state (modelled as the stream of values written so far) is returned
unchanged — the TTL contributes nothing. -/
def ttlHash (_ : TransientTTL) (state : List Nat) : List Nat := state

/-- `Ipv4Addr`: four octets. -/
structure Ipv4Addr where
  o0 : Nat
  o1 : Nat
  o2 : Nat
  o3 : Nat
deriving DecidableEq

/-- `Ipv6Addr`: eight 16-bit segments. -/
structure Ipv6Addr where
  s0 : Nat
  s1 : Nat
  s2 : Nat
  s3 : Nat
  s4 : Nat
  s5 : Nat
  s6 : Nat
  s7 : Nat
deriving DecidableEq

/-- `DNSRecord` from `protocol.rs`.  Strings are UTF-8 byte lists. -/
inductive DNSRecord where
  | UNKNOWN (domain : List Nat) (q_type : Nat) (data_len : Nat)
      (ttl : TransientTTL)
  | A (domain : List Nat) (addr : Ipv4Addr) (ttl : TransientTTL)
  | NS (domain : List Nat) (host : List Nat) (ttl : TransientTTL)
  | CNAME (domain : List Nat) (host : List Nat) (ttl : TransientTTL)
  | SOA (domain : List Nat) (m_name : List Nat) (r_name : List Nat)
      (serial : Nat) (refresh : Nat) (retry : Nat) (expire : Nat)
      (minimum : Nat) (ttl : TransientTTL)
  | MX (domain : List Nat) (priority : Nat) (host : List Nat)
      (ttl : TransientTTL)
  | TXT (domain : List Nat) (data : List Nat) (ttl : TransientTTL)
  | AAAA (domain : List Nat) (addr : Ipv6Addr) (ttl : TransientTTL)
  | SRV (domain : List Nat) (priority : Nat) (weight : Nat) (port : Nat)
      (host : List Nat) (ttl : TransientTTL)
  | OPT (packet_len : Nat) (flags : Nat) (data : List Nat)
deriving DecidableEq

/-- `DNSRecord::read`.  `fuel` feeds the embedded `read_qname`. -/
def DNSRecord.read (fuel : Nat) (b : BytePacketBuffer) :
    Res (DNSRecord × BytePacketBuffer) := do
  let (domain, b) ← readQname fuel b []
  let (qTypeNum, b) ← b.readU16
  let qType := QueryType.fromNum qTypeNum
  let (class_, b) ← b.readU16
  let (ttlNum, b) ← b.readU32
  let ttl : TransientTTL := ⟨ttlNum⟩
  let (dataLen, b) ← b.readU16
  match qType with
  | .A => do
    let (rawAddr, b) ← b.readU32
    let addr : Ipv4Addr :=
      ⟨(rawAddr >>> 24) &&& 0xFF, (rawAddr >>> 16) &&& 0xFF,
       (rawAddr >>> 8) &&& 0xFF, (rawAddr >>> 0) &&& 0xFF⟩
    pure (.A domain addr ttl, b)
  | .AAAA => do
    let (raw1, b) ← b.readU32
    let (raw2, b) ← b.readU32
    let (raw3, b) ← b.readU32
    let (raw4, b) ← b.readU32
    let addr : Ipv6Addr :=
      ⟨(raw1 >>> 16) &&& 0xFFFF, (raw1 >>> 0) &&& 0xFFFF,
       (raw2 >>> 16) &&& 0xFFFF, (raw2 >>> 0) &&& 0xFFFF,
       (raw3 >>> 16) &&& 0xFFFF, (raw3 >>> 0) &&& 0xFFFF,
       (raw4 >>> 16) &&& 0xFFFF, (raw4 >>> 0) &&& 0xFFFF⟩
    pure (.AAAA domain addr ttl, b)
  | .NS => do
    let (host, b) ← readQname fuel b []
    pure (.NS domain host ttl, b)
  | .CNAME => do
    let (host, b) ← readQname fuel b []
    pure (.CNAME domain host ttl, b)
  | .SRV => do
    let (priority, b) ← b.readU16
    let (weight, b) ← b.readU16
    let (port, b) ← b.readU16
    let (host, b) ← readQname fuel b []
    pure (.SRV domain priority weight port host ttl, b)
  | .MX => do
    let (priority, b) ← b.readU16
    let (host, b) ← readQname fuel b []
    pure (.MX domain priority host ttl, b)
  | .SOA => do
    let (mName, b) ← readQname fuel b []
    let (rName, b) ← readQname fuel b []
    let (serial, b) ← b.readU32
    let (refresh, b) ← b.readU32
    let (retry, b) ← b.readU32
    let (expire, b) ← b.readU32
    let (minimum, b) ← b.readU32
    pure (.SOA domain mName rName serial refresh retry expire minimum ttl, b)
  | .TXT => do
    -- `String::from_utf8_lossy` is the identity on the byte level for
    -- ASCII payloads; the raw bytes are kept.
    let data ← b.getRange b.pos dataLen
    let b ← b.step dataLen
    pure (.TXT domain data ttl, b)
  | .OPT => do
    let data ← b.getRange b.pos dataLen
    let b ← b.step dataLen
    pure (.OPT class_ ttlNum data, b)
  | .UNKNOWN _ => do
    let b ← b.step dataLen
    pure (.UNKNOWN domain qTypeNum dataLen ttl, b)

/-- `DNSRecord::write`.  Returns the number of bytes written
(`buffer.pos() - start_pos`).  The variable-length variants reserve a
zero 16-bit length and patch it afterwards with `set_u16`; the `as u16`
cast on the patched length is the `% 65536`.  `OPT` and `UNKNOWN` write
nothing (for `UNKNOWN` the source only prints a log line). -/
def DNSRecord.write (r : DNSRecord) (b : BytePacketBuffer) :
    Res (Nat × BytePacketBuffer) := do
  let startPos := b.pos
  match r with
  | .A domain addr ttl => do
    let b ← writeQname b domain
    let b ← b.writeU16 QueryType.A.toNum
    let b ← b.writeU16 1
    let b ← b.writeU32 ttl.val
    let b ← b.writeU16 4
    let b ← b.write addr.o0
    let b ← b.write addr.o1
    let b ← b.write addr.o2
    let b ← b.write addr.o3
    pure (b.pos - startPos, b)
  | .AAAA domain addr ttl => do
    let b ← writeQname b domain
    let b ← b.writeU16 QueryType.AAAA.toNum
    let b ← b.writeU16 1
    let b ← b.writeU32 ttl.val
    -- the source writes the 16-byte data length with `write_u32`
    let b ← b.writeU32 16
    let b ← b.writeU16 addr.s0
    let b ← b.writeU16 addr.s1
    let b ← b.writeU16 addr.s2
    let b ← b.writeU16 addr.s3
    let b ← b.writeU16 addr.s4
    let b ← b.writeU16 addr.s5
    let b ← b.writeU16 addr.s6
    let b ← b.writeU16 addr.s7
    pure (b.pos - startPos, b)
  | .NS domain host ttl => do
    let b ← writeQname b domain
    let b ← b.writeU16 QueryType.NS.toNum
    let b ← b.writeU16 1
    let b ← b.writeU32 ttl.val
    let pos := b.pos
    let b ← b.writeU16 0
    let b ← writeQname b host
    let dataLen := b.pos - (pos + 2)
    let b ← b.setU16 pos (dataLen % 65536)
    pure (b.pos - startPos, b)
  | .CNAME domain host ttl => do
    let b ← writeQname b domain
    let b ← b.writeU16 QueryType.CNAME.toNum
    let b ← b.writeU16 1
    let b ← b.writeU32 ttl.val
    let pos := b.pos
    let b ← b.writeU16 0
    let b ← writeQname b host
    let dataLen := b.pos - (pos + 2)
    let b ← b.setU16 pos (dataLen % 65536)
    pure (b.pos - startPos, b)
  | .SRV domain priority weight port host ttl => do
    let b ← writeQname b domain
    let b ← b.writeU16 QueryType.SRV.toNum
    let b ← b.writeU16 1
    let b ← b.writeU32 ttl.val
    let pos := b.pos
    let b ← b.writeU16 0
    let b ← b.writeU16 priority
    let b ← b.writeU16 weight
    let b ← b.writeU16 port
    let b ← writeQname b host
    let dataLen := b.pos - (pos + 2)
    let b ← b.setU16 pos (dataLen % 65536)
    pure (b.pos - startPos, b)
  | .MX domain priority host ttl => do
    let b ← writeQname b domain
    let b ← b.writeU16 QueryType.MX.toNum
    let b ← b.writeU16 1
    let b ← b.writeU32 ttl.val
    let pos := b.pos
    let b ← b.writeU16 0
    let b ← b.writeU16 priority
    let b ← writeQname b host
    let dataLen := b.pos - (pos + 2)
    let b ← b.setU16 pos (dataLen % 65536)
    pure (b.pos - startPos, b)
  | .SOA domain mName rName serial refresh retry expire minimum ttl => do
    let b ← writeQname b domain
    let b ← b.writeU16 QueryType.SOA.toNum
    let b ← b.writeU16 1
    let b ← b.writeU32 ttl.val
    let pos := b.pos
    let b ← b.writeU16 0
    let b ← writeQname b mName
    let b ← writeQname b rName
    let b ← b.writeU32 serial
    let b ← b.writeU32 refresh
    let b ← b.writeU32 retry
    let b ← b.writeU32 expire
    let b ← b.writeU32 minimum
    let dataLen := b.pos - (pos + 2)
    let b ← b.setU16 pos (dataLen % 65536)
    pure (b.pos - startPos, b)
  | .TXT domain data ttl => do
    let b ← writeQname b domain
    let b ← b.writeU16 QueryType.TXT.toNum
    let b ← b.writeU16 1
    let b ← b.writeU32 ttl.val
    let b ← b.writeU16 (data.length % 65536)
    let b ← writeAll data b
    pure (b.pos - startPos, b)
  | .OPT _ _ _ =>
    pure (b.pos - startPos, b)
  | .UNKNOWN _ _ _ _ =>
    pure (b.pos - startPos, b)

/-- `DNSPacket` from `protocol.rs`. -/
structure DNSPacket where
  header : DNSHeader
  questions : List DNSQuestion
  answers : List DNSRecord
  authorities : List DNSRecord
  additional : List DNSRecord
deriving DecidableEq

/-- `DNSPacket::new`. -/
def DNSPacket.new : DNSPacket :=
  { header := DNSHeader.new, questions := [], answers := [],
    authorities := [], additional := [] }

/-- The `for _ in 0..count` question-reading loop of `from_buffer`. -/
def readQuestionsN (fuel : Nat) :
    Nat → BytePacketBuffer → Res (List DNSQuestion × BytePacketBuffer)
  | 0, b => .ok ([], b)
  | n + 1, b => do
    let (q, b) ← DNSQuestion.read fuel b
    let (qs, b) ← readQuestionsN fuel n b
    pure (q :: qs, b)

/-- The `for _ in 0..count` record-reading loops of `from_buffer`. -/
def readRecordsN (fuel : Nat) :
    Nat → BytePacketBuffer → Res (List DNSRecord × BytePacketBuffer)
  | 0, b => .ok ([], b)
  | n + 1, b => do
    let (r, b) ← DNSRecord.read fuel b
    let (rs, b) ← readRecordsN fuel n b
    pure (r :: rs, b)

/-- `DNSPacket::from_buffer`: header, then exactly the declared numbers
of questions, answers, authorities and additional records, in that
order, starting at the buffer's current cursor. -/
def DNSPacket.fromBuffer (fuel : Nat) (b : BytePacketBuffer) :
    Res (DNSPacket × BytePacketBuffer) := do
  let (header, b) ← DNSHeader.read b
  let (questions, b) ← readQuestionsN fuel header.questions b
  let (answers, b) ← readRecordsN fuel header.answers b
  let (authorities, b) ← readRecordsN fuel header.authoritative_entries b
  let (additional, b) ← readRecordsN fuel header.additional_entries b
  pure ({ header := header, questions := questions, answers := answers,
          authorities := authorities, additional := additional }, b)

/-- The question-writing loop of `DNSPacket::write`. -/
def writeQuestionList : List DNSQuestion → BytePacketBuffer →
    Res BytePacketBuffer
  | [], b => .ok b
  | q :: qs, b => do
    let b ← q.write b
    writeQuestionList qs b

/-- The record-writing loops of `DNSPacket::write` (the byte count
returned by `DNSRecord::write` is discarded). -/
def writeRecordList : List DNSRecord → BytePacketBuffer →
    Res BytePacketBuffer
  | [], b => .ok b
  | r :: rs, b => do
    let (_, b) ← r.write b
    writeRecordList rs b

/-- `DNSPacket::write`: first overwrite the header's four counts with the
actual section lengths (`len() as u16`, hence `% 65536`), then write the
header and the four sections in the fixed order questions, answers,
authorities, additional.  The source takes `&mut self`, so the packet
with the updated header is returned alongside the buffer. -/
def DNSPacket.write (p : DNSPacket) (b : BytePacketBuffer) :
    Res (DNSPacket × BytePacketBuffer) :=
  let h := { p.header with
             questions := p.questions.length % 65536,
             answers := p.answers.length % 65536,
             authoritative_entries := p.authorities.length % 65536,
             additional_entries := p.additional.length % 65536 }
  let p' := { p with header := h }
  do
    let b ← h.write b
    let b ← writeQuestionList p.questions b
    let b ← writeRecordList p.answers b
    let b ← writeRecordList p.authorities b
    let b ← writeRecordList p.additional b
    pure (p', b)

/-- Derived `PartialEq` semantics for `DNSRecord`: same variant, all
fields equal — except the `ttl` field, which is compared with
`TransientTTL`'s `PartialEq` (`ttlEq`, always true). -/
def recordEq : DNSRecord → DNSRecord → Bool
  | .UNKNOWN d1 q1 l1 t1, .UNKNOWN d2 q2 l2 t2 =>
    d1 == d2 && q1 == q2 && l1 == l2 && ttlEq t1 t2
  | .A d1 a1 t1, .A d2 a2 t2 => d1 == d2 && a1 == a2 && ttlEq t1 t2
  | .NS d1 h1 t1, .NS d2 h2 t2 => d1 == d2 && h1 == h2 && ttlEq t1 t2
  | .CNAME d1 h1 t1, .CNAME d2 h2 t2 => d1 == d2 && h1 == h2 && ttlEq t1 t2
  | .SOA d1 m1 r1 s1 rf1 rt1 e1 mi1 t1, .SOA d2 m2 r2 s2 rf2 rt2 e2 mi2 t2 =>
    d1 == d2 && m1 == m2 && r1 == r2 && s1 == s2 && rf1 == rf2 &&
      rt1 == rt2 && e1 == e2 && mi1 == mi2 && ttlEq t1 t2
  | .MX d1 p1 h1 t1, .MX d2 p2 h2 t2 =>
    d1 == d2 && p1 == p2 && h1 == h2 && ttlEq t1 t2
  | .TXT d1 da1 t1, .TXT d2 da2 t2 => d1 == d2 && da1 == da2 && ttlEq t1 t2
  | .AAAA d1 a1 t1, .AAAA d2 a2 t2 => d1 == d2 && a1 == a2 && ttlEq t1 t2
  | .SRV d1 p1 w1 po1 h1 t1, .SRV d2 p2 w2 po2 h2 t2 =>
    d1 == d2 && p1 == p2 && w1 == w2 && po1 == po2 && h1 == h2 &&
      ttlEq t1 t2
  | .OPT p1 f1 da1, .OPT p2 f2 da2 => p1 == p2 && f1 == f2 && da1 == da2
  | _, _ => false

/-- Hash contribution of one numeric field (the hasher is modelled as
the stream of values written to it). -/
def hashNat (n : Nat) (state : List Nat) : List Nat := state ++ [n]

/-- Hash contribution of a string field (its bytes followed by the
`0xFF` terminator Rust's `str` hashing appends). -/
def hashBytes (l : List Nat) (state : List Nat) : List Nat :=
  state ++ l ++ [255]

/-- Hash contribution of an `Ipv4Addr` (its four octets). -/
def hashIpv4 (a : Ipv4Addr) (state : List Nat) : List Nat :=
  state ++ [a.o0, a.o1, a.o2, a.o3]

/-- Hash contribution of an `Ipv6Addr` (its eight segments). -/
def hashIpv6 (a : Ipv6Addr) (state : List Nat) : List Nat :=
  state ++ [a.s0, a.s1, a.s2, a.s3, a.s4, a.s5, a.s6, a.s7]

/-- Derived `Hash` semantics for `DNSRecord`: hash the variant
discriminant, then every field in declaration order; the `ttl` field is
hashed with `TransientTTL`'s `Hash` (`ttlHash`, which writes nothing). -/
def DNSRecord.hashStream (r : DNSRecord) (state : List Nat) : List Nat :=
  match r with
  | .UNKNOWN d q l t => ttlHash t (hashNat l (hashNat q (hashBytes d (hashNat 0 state))))
  | .A d a t => ttlHash t (hashIpv4 a (hashBytes d (hashNat 1 state)))
  | .NS d h t => ttlHash t (hashBytes h (hashBytes d (hashNat 2 state)))
  | .CNAME d h t => ttlHash t (hashBytes h (hashBytes d (hashNat 3 state)))
  | .SOA d m r2 s rf rt e mi t =>
    ttlHash t (hashNat mi (hashNat e (hashNat rt (hashNat rf (hashNat s
      (hashBytes r2 (hashBytes m (hashBytes d (hashNat 4 state)))))))))
  | .MX d p h t => ttlHash t (hashBytes h (hashNat p (hashBytes d (hashNat 5 state))))
  | .TXT d da t => ttlHash t (hashBytes da (hashBytes d (hashNat 6 state)))
  | .AAAA d a t => ttlHash t (hashIpv6 a (hashBytes d (hashNat 7 state)))
  | .SRV d p w po h t =>
    ttlHash t (hashBytes h (hashNat po (hashNat w (hashNat p
      (hashBytes d (hashNat 8 state))))))
  | .OPT p f da => hashBytes da (hashNat f (hashNat p (hashNat 9 state)))

/-- Replace the TTL field of a record (identity on `OPT`, which has no
TTL); used to state "two records that differ only in TTL". -/
def setTTL : DNSRecord → TransientTTL → DNSRecord
  | .UNKNOWN d q l _, t => .UNKNOWN d q l t
  | .A d a _, t => .A d a t
  | .NS d h _, t => .NS d h t
  | .CNAME d h _, t => .CNAME d h t
  | .SOA d m r s rf rt e mi _, t => .SOA d m r s rf rt e mi t
  | .MX d p h _, t => .MX d p h t
  | .TXT d da _, t => .TXT d da t
  | .AAAA d a _, t => .AAAA d a t
  | .SRV d p w po h _, t => .SRV d p w po h t
  | .OPT p f da, _ => .OPT p f da

/-- Element-wise list comparison by a given comparator. -/
def listEqBy {α : Type} (f : α → α → Bool) : List α → List α → Bool
  | [], [] => true
  | x :: xs, y :: ys => f x y && listEqBy f xs ys
  | _, _ => false

/-- Message equality "modulo TTL": headers and questions structurally
equal, record sections compared with the TTL-insensitive `recordEq`. -/
def packetEqModTTL (p1 p2 : DNSPacket) : Bool :=
  (p1.header == p2.header) && (p1.questions == p2.questions) &&
  listEqBy recordEq p1.answers p2.answers &&
  listEqBy recordEq p1.authorities p2.authorities &&
  listEqBy recordEq p1.additional p2.additional

/-- The 12 header bytes `DNSHeader::write` emits, as values. -/
def headerBytes (h : DNSHeader) : List Nat :=
  [(h.id >>> 8) &&& 0xFF, h.id &&& 0xFF,
   flagByteA h, flagByteB h,
   (h.questions >>> 8) &&& 0xFF, h.questions &&& 0xFF,
   (h.answers >>> 8) &&& 0xFF, h.answers &&& 0xFF,
   (h.authoritative_entries >>> 8) &&& 0xFF, h.authoritative_entries &&& 0xFF,
   (h.additional_entries >>> 8) &&& 0xFF, h.additional_entries &&& 0xFF]

/-- Write a header into a fresh 512-byte buffer, then read it back from
position 0 (the scenario of the header bit-packing property). -/
def hdrRoundTrip (h : DNSHeader) : Res DNSHeader := do
  let b ← h.write BytePacketBuffer.new
  let (h2, _) ← DNSHeader.read { b with pos := 0 }
  pure h2

/-- A buffer whose name at offset 0 is a compression pointer to offset 2,
where a second pointer points back to offset 0 — the `A -> B -> A`
pointer cycle. -/
def cyclicPtrBuf : BytePacketBuffer :=
  { buf := [0xC0, 2, 0xC0, 0] ++ List.replicate 508 0, pos := 0 }

/-- The cyclic buffer after the first-jump cursor fix (`seek(0 + 2)`). -/
def cyclicPtrJumped : BytePacketBuffer := { cyclicPtrBuf with pos := 2 }

/-- A buffer holding the name `abc` (no pointer) at offset 0. -/
def plainNameBuf : BytePacketBuffer :=
  { buf := [3, 97, 98, 99, 0] ++ List.replicate 507 0, pos := 0 }

/-- A buffer whose name at offset 0 is a pointer to offset 4, where the
name `abc` is stored: `[C0 04 00 00 03 'a' 'b' 'c' 00 ...]`. -/
def ptrNameBuf : BytePacketBuffer :=
  { buf := [0xC0, 4, 0, 0, 3, 97, 98, 99, 0] ++ List.replicate 503 0,
    pos := 0 }

/-- Round-trip pipeline: encode a packet into a fresh buffer with
`DNSPacket::write`, then decode the same bytes from position 0 with
`DNSPacket::from_buffer`. -/
def roundTrip (fuel : Nat) (p : DNSPacket) : Res DNSPacket := do
  let (_, b) ← p.write BytePacketBuffer.new
  let (d, _) ← DNSPacket.fromBuffer fuel { b with pos := 0 }
  pure d

/-- Failing input for the round-trip property: a message with one
question `abc`, query type `A`, and no records. -/
def c1Packet : DNSPacket :=
  { header := { DNSHeader.new with questions := 1 },
    questions := [{ name := [97, 98, 99], q_type := .A }],
    answers := [], authorities := [], additional := [] }

/-- What `from_buffer` actually produces for the encoding of
`c1Packet`: since `write_qname` emits no terminating zero byte, the
decoder consumes the high byte of the question's type field as the name
terminator and mis-reads the type as `0x0100 = UNKNOWN(256)`. -/
def c1Decoded : DNSPacket :=
  { header := { DNSHeader.new with questions := 1 },
    questions := [{ name := [97, 98, 99], q_type := .UNKNOWN 256 }],
    answers := [], authorities := [], additional := [] }

/-- Failing input for the AAAA rdlength property: an `AAAA` record with
the root domain and address `::1`. -/
def c2Record : DNSRecord :=
  .AAAA [] { s0 := 0, s1 := 0, s2 := 0, s3 := 0, s4 := 0, s5 := 0,
             s6 := 0, s7 := 1 } { val := 7 }

/-- Byte count and emitted bytes of encoding `c2Record` into a fresh
buffer. -/
def c2Bytes : Res (Nat × List Nat) := do
  let (n, b) ← c2Record.write BytePacketBuffer.new
  pure (n, b.buf.take n)

/-- Encoded size of a label list as `write_qname` emits it: one length
byte plus the label bytes, per label. -/
def labelsSize : List (List Nat) → Nat
  | [] => 0
  | l :: ls => 1 + l.length + labelsSize ls

/-- The header of the header bit-packing property: id=0xABCD, all nine
boolean flags true, opcode=0xF, rescode=REFUSED, nonzero counts. -/
def c6Header : DNSHeader :=
  { id := 0xABCD, response := true, opcode := 0xF,
    authoritative_answer := true, truncated_message := true,
    recursion_desired := true, recursion_available := true, z := true,
    checking_disabled := true, authed_data := true, rescode := .REFUSED,
    questions := 1, answers := 2, authoritative_entries := 3,
    additional_entries := 4 }

/-- Relation used to track that the section-writing phase of
`DNSPacket::write` never touches the 12 header bytes: the cursor stays
at or beyond 12 and the first 12 buffer entries are unchanged. -/
def keeps12 (b b' : BytePacketBuffer) : Prop :=
  12 ≤ b'.pos ∧ ∀ i, i < 12 → b'.buf[i]? = b.buf[i]?

/-! ## Basic lemmas about `Res` -/

@[simp] theorem Res.bind_ok {α β : Type} (a : α) (f : α → Res β) :
    Res.bind (.ok a) f = f a := rfl

@[simp] theorem Res.bind_err {α β : Type} (e : DnsErr) (f : α → Res β) :
    Res.bind (.err e) f = .err e := rfl

@[simp] theorem Res.bind_hang {α β : Type} (f : α → Res β) :
    Res.bind .hang f = .hang := rfl

@[simp] theorem Res.bind_def {α β : Type} (r : Res α) (f : α → Res β) :
    r >>= f = Res.bind r f := rfl

@[simp] theorem Res.pure_def {α : Type} (a : α) : (pure a : Res α) = .ok a := rfl

theorem Res.bind_eq_ok {α β : Type} {r : Res α} {f : α → Res β} {b : β} :
    Res.bind r f = .ok b ↔ ∃ a, r = .ok a ∧ f a = .ok b := by
  cases r <;> simp [Res.bind]

/-! ## The claims -/

/-- C1: the round-trip property `decode(encode(m)) == m` (modulo TTL)
fails on the code: already for a message whose only content is one
question `abc` of type `A`, encoding and decoding yields a question of
type `UNKNOWN(256)`, because `write_qname` emits no terminating zero
byte and the decoder consumes the type field's high byte as the name
terminator.  The theorem evaluates the code at this failing input. -/
theorem c1_round_trip_broken :
    roundTrip 64 c1Packet = .ok c1Decoded ∧
    packetEqModTTL c1Packet c1Decoded = false ∧
    c1Decoded.questions ≠ c1Packet.questions := by
  refine ⟨by decide, by decide, by decide⟩

/-- C2: the AAAA write arm does not emit a 2-byte rdlength: it calls
`write_u32(16)`, so after the 4-byte TTL come the four bytes
`00 00 00 10` and the whole record occupies `name + 2 + 2 + 4 + 4 + 16`
bytes (29 for the root domain), not `name + 2 + 2 + 4 + 2 + 16` (27).
The theorem evaluates `DNSRecord::write` at a concrete AAAA record. -/
theorem c2_aaaa_rdlength_written_as_u32 :
    c2Bytes = .ok (29,
      [0, 0, 28, 0, 1, 0, 0, 0, 7, 0, 0, 0, 16,
       0, 0, 0, 0, 0, 0, 0, 0, 0, 0, 0, 0, 0, 0, 0, 1]) ∧
    29 ≠ 1 + 2 + 2 + 4 + 2 + 16 := by
  refine ⟨by decide, by decide⟩

/-- C3: `get_range` checks `start + len >= 512`, so the call
`get_range(510, 2)` fails even though both addressed positions 510 and
511 are below the capacity (both are readable with `get`), contradicting
the claimed "fails exactly when some addressed position is at or beyond
512" and its consequence "start + len <= 512 succeeds". -/
theorem c3_get_range_off_by_one :
    BytePacketBuffer.new.getRange 510 2 = .err .endOfBuffer ∧
    BytePacketBuffer.new.get 510 = .ok 0 ∧
    BytePacketBuffer.new.get 511 = .ok 0 ∧
    510 + 2 ≤ 512 := by
  refine ⟨by decide, by decide, by decide, by decide⟩

/-- On the pointer-cycle buffer, one loop step from offset 0 (already
jumped) lands at offset 2 and vice versa. -/
theorem readQnameLoop_cyclic_step1 (n : Nat) (d a : List Nat) :
    readQnameLoop (n + 1) cyclicPtrJumped 0 d true a =
    readQnameLoop n cyclicPtrJumped 2 d true a := rfl

theorem readQnameLoop_cyclic_step2 (n : Nat) (d a : List Nat) :
    readQnameLoop (n + 1) cyclicPtrJumped 2 d true a =
    readQnameLoop n cyclicPtrJumped 0 d true a := rfl

theorem readQnameLoop_cyclic_hang (d a : List Nat) :
    ∀ fuel, readQnameLoop fuel cyclicPtrJumped 0 d true a = .hang ∧
      readQnameLoop fuel cyclicPtrJumped 2 d true a = .hang := by
  intro fuel
  induction fuel with
  | zero => exact ⟨rfl, rfl⟩
  | succ n ih =>
    rw [readQnameLoop_cyclic_step1, readQnameLoop_cyclic_step2]
    exact ⟨ih.2, ih.1⟩

/-- C4: on the buffer containing the pointer cycle 0 -> 2 -> 0,
`read_qname` never terminates: for every amount of fuel the embedded
loop exhausts it (`Res.hang`), so the decode loop follows pointer hops
without any bound. -/
theorem c4_pointer_cycle_nonterminating :
    ∀ fuel, readQname fuel cyclicPtrBuf [] = .hang := by
  intro fuel
  cases fuel with
  | zero => rfl
  | succ n =>
    have h := (readQnameLoop_cyclic_hang [] [] n).2
    exact h

/-- C9: `TransientTTL`'s equality is constantly true and its hashing
writes nothing to the hasher, so two records of the same variant that
differ only in their TTL compare equal under the derived record
equality and produce identical hash streams. -/
theorem c9_ttl_transparent :
    (∀ a b : TransientTTL, ttlEq a b = true) ∧
    (∀ (a : TransientTTL) (s : List Nat), ttlHash a s = s) ∧
    (∀ (r : DNSRecord) (t1 t2 : TransientTTL) (s : List Nat),
      recordEq (setTTL r t1) (setTTL r t2) = true ∧
      DNSRecord.hashStream (setTTL r t1) s =
        DNSRecord.hashStream (setTTL r t2) s) := by
  refine ⟨fun a b => rfl, fun a s => rfl, fun r t1 t2 s => ?_⟩
  cases r <;>
    simp [setTTL, recordEq, ttlEq, DNSRecord.hashStream, ttlHash]

/-- C10: `seek` and `step` always succeed and set the cursor exactly as
requested, with no bounds check even past capacity; an out-of-range
cursor only surfaces when a subsequent `read` or `write` fails. -/
theorem c10_seek_step_unchecked :
    ∀ (b : BytePacketBuffer) (p n v : Nat),
      b.seek p = .ok { b with pos := p } ∧
      b.step n = .ok { b with pos := b.pos + n } ∧
      (512 ≤ p →
        ({ b with pos := p } : BytePacketBuffer).read = .err .endOfBuffer ∧
        ({ b with pos := p } : BytePacketBuffer).write v = .err .endOfBuffer) := by
  intro b p n v
  refine ⟨rfl, rfl, fun h => ⟨?_, ?_⟩⟩ <;>
    simp [BytePacketBuffer.read, BytePacketBuffer.write, h]

/-- Witness for C10 at a concrete out-of-range position. -/
theorem c10_seek_step_unchecked_witness :
    BytePacketBuffer.new.seek 600 = .ok { BytePacketBuffer.new with pos := 600 } ∧
    BytePacketBuffer.new.step 5 =
      .ok { BytePacketBuffer.new with pos := BytePacketBuffer.new.pos + 5 } ∧
    ({ BytePacketBuffer.new with pos := 600 } : BytePacketBuffer).read =
      .err .endOfBuffer := by
  have h := c10_seek_step_unchecked BytePacketBuffer.new 600 5 7
  exact ⟨h.1, h.2.1, (h.2.2 (by decide)).1⟩

theorem lt_two_pow_of_lt_256 (B i : Nat) (hB : B < 256) (hi : 8 ≤ i) :
    B < 2 ^ i := by
  have h2 : (2 : Nat) ^ 8 ≤ 2 ^ i := Nat.pow_le_pow_right (by norm_num) hi
  have h3 : (2 : Nat) ^ 8 = 256 := rfl
  omega

theorem and255_eq_mod (x : Nat) : x &&& 255 = x % 256 := by
  have := Nat.and_pow_two_sub_one_eq_mod x 8
  norm_num at this
  exact this

theorem lor_hi_lo (v : Nat) : ((v >>> 8) <<< 8) ||| (v % 256) = v := by
  have h256 : (256 : Nat) = 2 ^ 8 := rfl
  rw [h256]
  apply Nat.eq_of_testBit_eq
  intro i
  simp only [Nat.testBit_or, Nat.testBit_shiftLeft, Nat.testBit_shiftRight,
    Nat.testBit_mod_two_pow]
  by_cases h : 8 <= i
  case pos =>
    have h2 : ¬ i < 8 := by omega
    have h3 : 8 + (i - 8) = i := by omega
    simp [h, h2, h3]
  case neg =>
    have h2 : i < 8 := by omega
    simp [h, h2]

theorem word_hi (A B : Nat) (hA : A < 256) (hB : B < 256) :
    (((A <<< 8) ||| (B <<< 0)) >>> 8) % 256 = A := by
  rw [Nat.shiftLeft_zero]
  have key : ((A <<< 8) ||| B) >>> 8 = A := by
    apply Nat.eq_of_testBit_eq
    intro i
    simp only [Nat.testBit_shiftRight, Nat.testBit_or, Nat.testBit_shiftLeft]
    have h1 : (8 : Nat) ≤ 8 + i := by omega
    have h2 : 8 + i - 8 = i := by omega
    have h3 : B < 2 ^ (8 + i) := lt_two_pow_of_lt_256 B _ hB (by omega)
    simp [h1, h2, Nat.testBit_lt_two_pow h3]
  rw [key]
  exact Nat.mod_eq_of_lt hA

theorem word_lo (A B : Nat) (hB : B < 256) :
    ((A <<< 8) ||| (B <<< 0)) &&& 255 = B := by
  rw [Nat.shiftLeft_zero, and255_eq_mod]
  have key : ((A <<< 8) ||| B) % 256 = B % 256 := by
    have h256 : (256 : Nat) = 2 ^ 8 := rfl
    rw [h256]
    apply Nat.eq_of_testBit_eq
    intro i
    simp only [Nat.testBit_mod_two_pow, Nat.testBit_or, Nat.testBit_shiftLeft]
    by_cases h : i < 8
    case pos =>
      have h2 : ¬ 8 ≤ i := by omega
      simp [h, h2]
    case neg => simp [h]
  rw [key, Nat.mod_eq_of_lt hB]

theorem u16_roundtrip (v : Nat) (hv : v < 65536) :
    (((v >>> 8) &&& 255) <<< 8) ||| ((v &&& 255) <<< 0) = v := by
  rw [Nat.shiftLeft_zero, and255_eq_mod, and255_eq_mod]
  have h1 : (v >>> 8) % 256 = v >>> 8 := by
    apply Nat.mod_eq_of_lt
    rw [Nat.shiftRight_eq_div_pow]
    norm_num
    omega
  rw [h1]
  exact lor_hi_lo v

theorem b2n_shl_lt (x : Bool) (k : Nat) (hk : k ≤ 7) : b2n x <<< k < 2 ^ 8 := by
  have h1 : b2n x < 2 := by cases x <;> simp [b2n]
  rw [Nat.shiftLeft_eq]
  have h2 : (2 : Nat) ^ k ≤ 2 ^ 7 := Nat.pow_le_pow_right (by norm_num) hk
  have h3 : (2 : Nat) ^ 7 = 128 := rfl
  have h4 : (2 : Nat) ^ 8 = 256 := rfl
  have h5 : b2n x * 2 ^ k ≤ 1 * 2 ^ k := Nat.mul_le_mul_right _ (by omega)
  omega

theorem rescode_toNum_lt (r : ResultCode) : r.toNum < 2 ^ 8 := by
  cases r <;> decide

theorem flagByteA_lt (h : DNSHeader) : flagByteA h < 256 := by
  have h256 : (256 : Nat) = 2 ^ 8 := rfl
  rw [flagByteA, h256]
  refine Nat.or_lt_two_pow (Nat.or_lt_two_pow (Nat.or_lt_two_pow
    (Nat.or_lt_two_pow ?_ ?_) ?_) ?_) ?_
  · exact b2n_shl_lt _ 0 (by omega)
  · exact b2n_shl_lt _ 1 (by omega)
  · exact b2n_shl_lt _ 2 (by omega)
  · exact Nat.mod_lt _ (by norm_num)
  · exact b2n_shl_lt _ 7 (by omega)

theorem flagByteB_lt (h : DNSHeader) : flagByteB h < 256 := by
  have h256 : (256 : Nat) = 2 ^ 8 := rfl
  rw [flagByteB, h256]
  refine Nat.or_lt_two_pow (Nat.or_lt_two_pow (Nat.or_lt_two_pow
    (Nat.or_lt_two_pow ?_ ?_) ?_) ?_) ?_
  · exact rescode_toNum_lt _
  · exact b2n_shl_lt _ 4 (by omega)
  · exact b2n_shl_lt _ 5 (by omega)
  · exact b2n_shl_lt _ 6 (by omega)
  · exact b2n_shl_lt _ 7 (by omega)

theorem and255_mod_noop (x : Nat) : (x &&& 255) % 256 = x &&& 255 := by
  rw [and255_eq_mod]
  exact Nat.mod_mod_of_dvd x (by norm_num)

/-- Raw evaluation of `DNSHeader::write` on a fresh buffer: twelve
sequential byte writes at positions 0..11. -/
theorem headerWrite_new_raw (h : DNSHeader) :
    DNSHeader.write h BytePacketBuffer.new =
    .ok ⟨(((h.id >>> 8) &&& 255) % 256) :: (((h.id >>> 0) &&& 255) % 256) ::
         (flagByteA h % 256) :: (flagByteB h % 256) ::
         (((h.questions >>> 8) &&& 255) % 256) ::
         (((h.questions >>> 0) &&& 255) % 256) ::
         (((h.answers >>> 8) &&& 255) % 256) ::
         (((h.answers >>> 0) &&& 255) % 256) ::
         (((h.authoritative_entries >>> 8) &&& 255) % 256) ::
         (((h.authoritative_entries >>> 0) &&& 255) % 256) ::
         (((h.additional_entries >>> 8) &&& 255) % 256) ::
         (((h.additional_entries >>> 0) &&& 255) % 256) ::
         List.replicate 500 0, 12⟩ := rfl

/-- The emitted header bytes in their clean form. -/
theorem headerWrite_new (h : DNSHeader) :
    DNSHeader.write h BytePacketBuffer.new =
    .ok ⟨headerBytes h ++ List.replicate 500 0, 12⟩ := by
  rw [headerWrite_new_raw]
  simp [headerBytes, and255_mod_noop, Nat.mod_eq_of_lt (flagByteA_lt h),
    Nat.mod_eq_of_lt (flagByteB_lt h), Nat.shiftRight_zero]

/-- Raw evaluation of `DNSHeader::read` at position 0 of an explicit
buffer: twelve sequential byte reads and the bit unpacking. -/
theorem headerRead_explicit (v0 v1 v2 v3 v4 v5 v6 v7 v8 v9 v10 v11 : Nat)
    (rest : List Nat) :
    DNSHeader.read ⟨v0 :: v1 :: v2 :: v3 :: v4 :: v5 :: v6 :: v7 :: v8 ::
      v9 :: v10 :: v11 :: rest, 0⟩ =
    .ok ({ id := (v0 <<< 8) ||| (v1 <<< 0)
           recursion_desired :=
             (((((v2 <<< 8) ||| (v3 <<< 0)) >>> 8) % 256) &&& (1 <<< 0)) != 0
           truncated_message :=
             (((((v2 <<< 8) ||| (v3 <<< 0)) >>> 8) % 256) &&& (1 <<< 1)) != 0
           authoritative_answer :=
             (((((v2 <<< 8) ||| (v3 <<< 0)) >>> 8) % 256) &&& (1 <<< 2)) != 0
           opcode := (((((v2 <<< 8) ||| (v3 <<< 0)) >>> 8) % 256) >>> 3) &&& 15
           response :=
             (((((v2 <<< 8) ||| (v3 <<< 0)) >>> 8) % 256) &&& (1 <<< 7)) != 0
           rescode :=
             ResultCode.fromNum ((((v2 <<< 8) ||| (v3 <<< 0)) &&& 255) &&& 15)
           checking_disabled :=
             ((((v2 <<< 8) ||| (v3 <<< 0)) &&& 255) &&& (1 <<< 4)) != 0
           authed_data :=
             ((((v2 <<< 8) ||| (v3 <<< 0)) &&& 255) &&& (1 <<< 5)) != 0
           z := ((((v2 <<< 8) ||| (v3 <<< 0)) &&& 255) &&& (1 <<< 6)) != 0
           recursion_available :=
             ((((v2 <<< 8) ||| (v3 <<< 0)) &&& 255) &&& (1 <<< 7)) != 0
           questions := (v4 <<< 8) ||| (v5 <<< 0)
           answers := (v6 <<< 8) ||| (v7 <<< 0)
           authoritative_entries := (v8 <<< 8) ||| (v9 <<< 0)
           additional_entries := (v10 <<< 8) ||| (v11 <<< 0) },
         ⟨v0 :: v1 :: v2 :: v3 :: v4 :: v5 :: v6 :: v7 :: v8 :: v9 :: v10 ::
          v11 :: rest, 12⟩) := rfl

/-- Bit extraction from the first flags byte. -/
theorem bitsA (rd tm aa resp : Bool) (op : Nat) (hop : op < 16) :
    ((((b2n rd <<< 0) ||| (b2n tm <<< 1) ||| (b2n aa <<< 2) |||
       ((op <<< 3) % 256) ||| (b2n resp <<< 7)) &&& (1 <<< 0)) != 0) = rd ∧
    ((((b2n rd <<< 0) ||| (b2n tm <<< 1) ||| (b2n aa <<< 2) |||
       ((op <<< 3) % 256) ||| (b2n resp <<< 7)) &&& (1 <<< 1)) != 0) = tm ∧
    ((((b2n rd <<< 0) ||| (b2n tm <<< 1) ||| (b2n aa <<< 2) |||
       ((op <<< 3) % 256) ||| (b2n resp <<< 7)) &&& (1 <<< 2)) != 0) = aa ∧
    ((((b2n rd <<< 0) ||| (b2n tm <<< 1) ||| (b2n aa <<< 2) |||
       ((op <<< 3) % 256) ||| (b2n resp <<< 7)) >>> 3) &&& 15) = op ∧
    ((((b2n rd <<< 0) ||| (b2n tm <<< 1) ||| (b2n aa <<< 2) |||
       ((op <<< 3) % 256) ||| (b2n resp <<< 7)) &&& (1 <<< 7)) != 0) = resp := by
  cases rd <;> cases tm <;> cases aa <;> cases resp <;>
    interval_cases op <;> decide

/-- Bit extraction from the second flags byte. -/
theorem bitsB (cd ad zf ra : Bool) (rc : ResultCode) :
    ResultCode.fromNum (((rc.toNum ||| (b2n cd <<< 4) ||| (b2n ad <<< 5) |||
      (b2n zf <<< 6) ||| (b2n ra <<< 7))) &&& 15) = rc ∧
    (((rc.toNum ||| (b2n cd <<< 4) ||| (b2n ad <<< 5) |||
      (b2n zf <<< 6) ||| (b2n ra <<< 7)) &&& (1 <<< 4)) != 0) = cd ∧
    (((rc.toNum ||| (b2n cd <<< 4) ||| (b2n ad <<< 5) |||
      (b2n zf <<< 6) ||| (b2n ra <<< 7)) &&& (1 <<< 5)) != 0) = ad ∧
    (((rc.toNum ||| (b2n cd <<< 4) ||| (b2n ad <<< 5) |||
      (b2n zf <<< 6) ||| (b2n ra <<< 7)) &&& (1 <<< 6)) != 0) = zf ∧
    (((rc.toNum ||| (b2n cd <<< 4) ||| (b2n ad <<< 5) |||
      (b2n zf <<< 6) ||| (b2n ra <<< 7)) &&& (1 <<< 7)) != 0) = ra := by
  cases cd <;> cases ad <;> cases zf <;> cases ra <;> cases rc <;> decide

/-- C6: for every well-formed `DNSHeader` with `opcode < 16` (the
rescode ranges over the six-constructor enumeration by type), writing
the header into a fresh buffer with `DNSHeader::write` and reading the
12 bytes back from position 0 with `DNSHeader::read` reproduces every
field exactly. -/
theorem c6_header_roundtrip (h : DNSHeader) (hWF : h.WF) (hop : h.opcode < 16) :
    hdrRoundTrip h = .ok h := by
  obtain ⟨hid, hop8, hq, han, hau, had⟩ := hWF
  obtain ⟨id, resp, op, aa, tm, rd, ra, zf, cd, ad, rc, qs, an, au, ae⟩ := h
  unfold hdrRoundTrip
  rw [headerWrite_new]
  simp only [headerBytes, List.cons_append, List.nil_append, Res.bind_def,
    Res.bind_ok]
  rw [headerRead_explicit]
  simp only [Res.bind_ok, Res.pure_def, Res.ok.injEq, DNSHeader.mk.injEq]
  rw [word_hi _ _ (flagByteA_lt _) (flagByteB_lt _),
    word_lo _ _ (flagByteB_lt _)]
  simp only [flagByteA, flagByteB]
  refine ⟨?_, ?_, ?_, ?_, ?_, ?_, ?_, ?_, ?_, ?_, ?_, ?_, ?_, ?_, ?_⟩
  · exact u16_roundtrip id hid
  · exact (bitsA rd tm aa resp op hop).2.2.2.2
  · exact (bitsA rd tm aa resp op hop).2.2.2.1
  · exact (bitsA rd tm aa resp op hop).2.2.1
  · exact (bitsA rd tm aa resp op hop).2.1
  · exact (bitsA rd tm aa resp op hop).1
  · exact (bitsB cd ad zf ra rc).2.2.2.2
  · exact (bitsB cd ad zf ra rc).2.2.2.1
  · exact (bitsB cd ad zf ra rc).2.1
  · exact (bitsB cd ad zf ra rc).2.2.1
  · exact (bitsB cd ad zf ra rc).1
  · exact u16_roundtrip qs hq
  · exact u16_roundtrip an han
  · exact u16_roundtrip au hau
  · exact u16_roundtrip ae had

/-- Witness for C6 at the specific header named by the claim: id=0xABCD,
all nine boolean flags true, opcode=0xF, rescode=REFUSED, counts
1,2,3,4. -/
theorem c6_header_roundtrip_witness :
    DNSHeader.WF c6Header ∧ c6Header.opcode < 16 ∧
    hdrRoundTrip c6Header = .ok c6Header := by
  refine ⟨⟨by decide, by decide, by decide, by decide, by decide, by decide⟩,
    by decide, ?_⟩
  exact c6_header_roundtrip c6Header
    ⟨by decide, by decide, by decide, by decide, by decide, by decide⟩
    (by decide)

theorem writeAll_ok (bs : List Nat) :
    ∀ b : BytePacketBuffer, b.pos + bs.length ≤ 512 →
      ∃ b', writeAll bs b = .ok b' ∧ b'.pos = b.pos + bs.length := by
  induction bs with
  | nil => intro b _; exact ⟨b, rfl, by simp⟩
  | cons v rest ih =>
    intro b hroom
    have hlt : ¬ 512 ≤ b.pos := by simp at hroom ⊢; omega
    have hw : b.write v =
        .ok ⟨b.buf.set b.pos (v % 256), b.pos + 1⟩ := by
      simp [BytePacketBuffer.write, hlt]
    obtain ⟨b', hb', hpos⟩ :=
      ih ⟨b.buf.set b.pos (v % 256), b.pos + 1⟩ (by simp at hroom ⊢; omega)
    refine ⟨b', ?_, ?_⟩
    · simp [writeAll, hw, hb']
    · simp at hpos
      simp
      omega

theorem writeLabels_spec (ls : List (List Nat)) :
    ∀ b : BytePacketBuffer, b.pos + labelsSize ls ≤ 512 →
      ((∃ l ∈ ls, 63 < l.length) → writeLabels ls b = .err .labelTooLong) ∧
      ((∀ l ∈ ls, l.length ≤ 63) →
        ∃ b', writeLabels ls b = .ok b' ∧ b'.pos = b.pos + labelsSize ls) := by
  induction ls with
  | nil =>
    intro b _
    refine ⟨?_, ?_⟩
    · rintro ⟨l, hl, _⟩
      simp at hl
    · intro _
      exact ⟨b, rfl, by simp [labelsSize]⟩
  | cons l rest ih =>
    intro b hroom
    simp only [labelsSize] at hroom
    by_cases hlong : 63 < l.length
    · refine ⟨fun _ => ?_, fun hall => ?_⟩
      · simp [writeLabels, hlong]
      · exact absurd (hall l (by simp)) (by omega)
    · -- the length byte and the label bytes are written, then recurse
      have hlt : ¬ 512 ≤ b.pos := by omega
      have hw : b.write l.length =
          .ok ⟨b.buf.set b.pos (l.length % 256), b.pos + 1⟩ := by
        simp [BytePacketBuffer.write, hlt]
      obtain ⟨b2, hb2, hpos2⟩ :=
        writeAll_ok l ⟨b.buf.set b.pos (l.length % 256), b.pos + 1⟩
          (by simp; omega)
      have step : writeLabels (l :: rest) b = writeLabels rest b2 := by
        simp [writeLabels, hlong, hw, hb2]
      have hroom2 : b2.pos + labelsSize rest ≤ 512 := by
        simp at hpos2
        omega
      obtain ⟨ihErr, ihOk⟩ := ih b2 hroom2
      refine ⟨?_, ?_⟩
      · rintro ⟨l', hl', hlen'⟩
        rcases List.mem_cons.mp hl' with h | h
        · subst h; omega
        · rw [step]; exact ihErr ⟨l', h, hlen'⟩
      · intro hall
        obtain ⟨b', hb', hpos'⟩ := ihOk (fun x hx => hall x (by simp [hx]))
        refine ⟨b', by rw [step]; exact hb', ?_⟩
        simp at hpos2
        simp only [labelsSize]
        omega

theorem splitOnDot_ne_nil (q : List Nat) : splitOnDot q ≠ [] := by
  cases q with
  | nil => simp [splitOnDot]
  | cons c rest =>
    simp only [splitOnDot]
    split
    · simp
    · split <;> simp

theorem labelsSize_splitOnDot (q : List Nat) :
    labelsSize (splitOnDot q) = q.length + 1 := by
  induction q with
  | nil => rfl
  | cons c rest ih =>
    simp only [splitOnDot]
    split
    · simp [labelsSize]
      omega
    · rcases hs : splitOnDot rest with _ | ⟨l, ls⟩
      · exact absurd hs (splitOnDot_ne_nil rest)
      · rw [hs] at ih
        simp only [labelsSize] at ih ⊢
        simp
        omega

/-- C7: given room for the whole encoding (`pos + qname.length + 1 <=
512`, the exact number of bytes `write_qname` emits), `write_qname`
fails — and fails with the invalid-input condition (`labelTooLong`,
the "Single label exceeds 63 chars" error), never the out-of-range
End-of-Buffer condition — if and only if some label of the name is
longer than 63 bytes; when every label is at most 63 bytes (in
particular when the longest is exactly 63) it succeeds. -/
theorem c7_label_limit (qname : List Nat) (b : BytePacketBuffer)
    (hroom : b.pos + qname.length + 1 ≤ 512) :
    (writeQname b qname = .err .labelTooLong ↔
      ∃ l ∈ splitOnDot qname, 63 < l.length) ∧
    ((∀ l ∈ splitOnDot qname, l.length ≤ 63) →
      ∃ b', writeQname b qname = .ok b') ∧
    (writeQname b qname = .err .labelTooLong ∨
      ∃ b', writeQname b qname = .ok b') := by
  have hsz : b.pos + labelsSize (splitOnDot qname) ≤ 512 := by
    rw [labelsSize_splitOnDot]; omega
  obtain ⟨hErr, hOk⟩ := writeLabels_spec (splitOnDot qname) b hsz
  have hiff : writeQname b qname = .err .labelTooLong ↔
      ∃ l ∈ splitOnDot qname, 63 < l.length := by
    constructor
    · intro herr
      by_contra hno
      push_neg at hno
      obtain ⟨b', hb', _⟩ := hOk (fun l hl => (hno l hl))
      rw [writeQname] at herr
      rw [hb'] at herr
      exact Res.noConfusion herr
    · exact hErr
  refine ⟨hiff, ?_, ?_⟩
  · intro hall
    obtain ⟨b', hb', _⟩ := hOk hall
    exact ⟨b', hb'⟩
  · by_cases hlong : ∃ l ∈ splitOnDot qname, 63 < l.length
    · exact Or.inl (hiff.mpr hlong)
    · push_neg at hlong
      obtain ⟨b', hb', _⟩ := hOk hlong
      exact Or.inr ⟨b', hb'⟩

/-- Witness for C7: a 64-byte label fails with the invalid-input
condition, a 63-byte label succeeds, both on a fresh buffer. -/
theorem c7_label_limit_witness :
    (BytePacketBuffer.new.pos + (List.replicate 64 97).length + 1 ≤ 512) ∧
    writeQname BytePacketBuffer.new (List.replicate 64 97) =
      .err .labelTooLong ∧
    (∃ b', writeQname BytePacketBuffer.new (List.replicate 63 97) = .ok b') := by
  refine ⟨by decide, ?_, ?_⟩
  · exact (c7_label_limit (List.replicate 64 97) BytePacketBuffer.new
      (by decide)).1.mpr ⟨List.replicate 64 97, by decide, by decide⟩
  · exact (c7_label_limit (List.replicate 63 97) BytePacketBuffer.new
      (by decide)).2.1 (by decide)

/-- After the first jump (`jumped = true`) the loop never touches the
buffer again: no further pointer repositions the cursor and the final
seek is skipped. -/
theorem readQnameLoop_jumped_buf :
    ∀ (fuel : Nat) (b : BytePacketBuffer) (pos : Nat) (delim acc out : List Nat)
      (b' : BytePacketBuffer),
      readQnameLoop fuel b pos delim true acc = .ok (out, b') → b' = b := by
  intro fuel
  induction fuel with
  | zero =>
    intro b pos delim acc out b' h
    exact Res.noConfusion h
  | succ n ih =>
    intro b pos delim acc out b' h
    simp only [readQnameLoop, Bool.not_true, Bool.false_eq_true, if_false,
      reduceIte] at h
    split at h
    · exact Res.noConfusion h
    · exact Res.noConfusion h
    · split at h
      · -- pointer branch: recurse with the same buffer
        split at h
        · exact Res.noConfusion h
        · exact Res.noConfusion h
        · exact ih _ _ _ _ _ _ h
      · split at h
        · -- terminator: the buffer is returned unchanged
          simp only [Res.ok.injEq, Prod.mk.injEq] at h
          exact h.2.symm
        · -- label branch: recurse with the same buffer
          split at h
          · exact Res.noConfusion h
          · exact Res.noConfusion h
          · exact ih _ _ _ _ _ _ h

/-- Cursor contract of the loop before any jump: on success the final
buffer is the input buffer with its cursor at `firstPointer + 2` when a
pointer is encountered, or one past the terminating zero byte
otherwise. -/
theorem readQnameLoop_notJumped :
    ∀ (fuel : Nat) (b : BytePacketBuffer) (pos : Nat) (delim acc out : List Nat)
      (b' : BytePacketBuffer),
      readQnameLoop fuel b pos delim false acc = .ok (out, b') →
      (match nameScan b.buf fuel pos with
       | some (Sum.inl p) => b' = { b with pos := p + 2 }
       | some (Sum.inr e) => b' = { b with pos := e }
       | none => False) := by
  intro fuel
  induction fuel with
  | zero =>
    intro b pos delim acc out b' h
    exact Res.noConfusion h
  | succ n ih =>
    intro b pos delim acc out b' h
    simp only [readQnameLoop, Bool.not_false, Bool.false_eq_true, if_false,
      reduceIte] at h
    split at h
    · exact Res.noConfusion h
    · exact Res.noConfusion h
    · rename_i len heq
      have hget : pos < 512 ∧ b.buf.getD pos 0 = len := by
        by_cases hp : 512 ≤ pos
        · rw [BytePacketBuffer.get, if_pos hp] at heq
          exact Res.noConfusion heq
        · rw [BytePacketBuffer.get, if_neg hp] at heq
          exact ⟨by omega, Res.ok.inj heq⟩
      split at h
      · -- pointer branch
        rename_i hptr
        split at h
        · exact Res.noConfusion h
        · exact Res.noConfusion h
        · rename_i nb heq2
          have hbuf := readQnameLoop_jumped_buf n _ _ _ _ _ _ h
          have hscan : nameScan b.buf (n + 1) pos = some (Sum.inl pos) := by
            simp only [nameScan]
            rw [hget.2]
            simp [hptr]
          rw [hscan]
          exact hbuf
      · split at h
        · -- terminator
          rename_i hptr hzero
          simp only [Res.ok.injEq, Prod.mk.injEq] at h
          have hscan : nameScan b.buf (n + 1) pos =
              some (Sum.inr (pos + 1)) := by
            simp only [nameScan]
            rw [hget.2]
            simp [hptr, hzero]
          rw [hscan]
          exact h.2.symm
        · -- label branch
          rename_i hptr hzero
          split at h
          · exact Res.noConfusion h
          · exact Res.noConfusion h
          · rename_i label heq3
            have hih := ih _ _ _ _ _ _ h
            have hscan : nameScan b.buf (n + 1) pos =
                nameScan b.buf n (pos + 1 + len) := by
              simp only [nameScan]
              rw [hget.2]
              simp [hptr, hzero]
            rw [hscan]
            exact hih

/-- For a compression-pointer length byte, xor-ing with 0xC0 equals
masking with 0x3F. -/
theorem xor_c0 (len : Nat) (h1 : len < 256) (h2 : len &&& 0xC0 = 0xC0) :
    len ^^^ 0xC0 = len &&& 0x3F := by
  interval_cases len <;> revert h2 <;> decide

/-- C5: when `read_qname` succeeds, the buffer's cursor ends at
`p + 2` where `p` is the offset of the first compression-pointer byte
encountered (later pointers never move it), and one past the
terminating zero byte when no pointer occurs; moreover the jump target
computed from a pointer byte equals `((len & 0x3F) << 8) | next_byte`. -/
theorem c5_cursor_contract (fuel : Nat) (b : BytePacketBuffer)
    (outstr out : List Nat) (b' : BytePacketBuffer)
    (h : readQname fuel b outstr = .ok (out, b')) :
    (match nameScan b.buf fuel b.pos with
     | some (Sum.inl p) => b'.buf = b.buf ∧ b'.pos = p + 2
     | some (Sum.inr e) => b'.buf = b.buf ∧ b'.pos = e
     | none => False) ∧
    (∀ len nb, len < 256 → len &&& 0xC0 = 0xC0 →
      jumpTarget len nb = ((len &&& 0x3F) <<< 8) ||| nb) := by
  constructor
  · have hm := readQnameLoop_notJumped fuel b b.pos [] outstr out b' h
    revert hm
    cases hscan : nameScan b.buf fuel b.pos with
    | none => exact id
    | some s =>
      cases s with
      | inl p =>
        intro hm
        subst hm
        exact ⟨rfl, rfl⟩
      | inr e =>
        intro hm
        subst hm
        exact ⟨rfl, rfl⟩
  · intro len nb h1 h2
    rw [jumpTarget, xor_c0 len h1 h2]

/-- Witness for C5 on the buffer whose name at offset 0 is a pointer to
offset 4: the name decodes to `abc` and the cursor is fixed two bytes
past the first pointer, at offset 2. -/
theorem c5_cursor_contract_witness :
    readQname 8 ptrNameBuf [] =
      .ok ([97, 98, 99], { ptrNameBuf with pos := 2 }) ∧
    ({ ptrNameBuf with pos := 2 } : BytePacketBuffer).pos = 0 + 2 := by
  have h := c5_cursor_contract 8 ptrNameBuf [] [97, 98, 99]
    { ptrNameBuf with pos := 2 } (by decide)
  exact ⟨by decide, h.1.2⟩

theorem keeps12_trans {b1 b2 b3 : BytePacketBuffer}
    (h1 : keeps12 b1 b2) (h2 : keeps12 b2 b3) : keeps12 b1 b3 :=
  ⟨h2.1, fun i hi => (h2.2 i hi).trans (h1.2 i hi)⟩

theorem keeps12_self {b : BytePacketBuffer} (h : 12 ≤ b.pos) : keeps12 b b :=
  ⟨h, fun _ _ => rfl⟩

theorem keeps12_pos {b b' : BytePacketBuffer} (h : keeps12 b b') :
    12 ≤ b'.pos := h.1

theorem write_keeps {b b' : BytePacketBuffer} {v : Nat} (h12 : 12 ≤ b.pos)
    (h : b.write v = .ok b') : keeps12 b b' := by
  rw [BytePacketBuffer.write] at h
  split at h
  · exact Res.noConfusion h
  · obtain rfl := (Res.ok.inj h).symm
    refine ⟨by simp; omega, fun i hi => ?_⟩
    simp only
    exact List.getElem?_set_ne (by omega)

theorem set_keeps {b b' : BytePacketBuffer} {p v : Nat} (h12 : 12 ≤ b.pos)
    (hp : 12 ≤ p) (h : b.set p v = .ok b') :
    keeps12 b b' ∧ b'.pos = b.pos := by
  rw [BytePacketBuffer.set] at h
  split at h
  · exact Res.noConfusion h
  · obtain rfl := (Res.ok.inj h).symm
    refine ⟨⟨by simpa using h12, fun i hi => ?_⟩, rfl⟩
    simp only
    exact List.getElem?_set_ne (by omega)

theorem setU16_keeps {b b' : BytePacketBuffer} {p v : Nat} (h12 : 12 ≤ b.pos)
    (hp : 12 ≤ p) (h : b.setU16 p v = .ok b') :
    keeps12 b b' ∧ b'.pos = b.pos := by
  simp only [BytePacketBuffer.setU16, Res.bind_def, Res.pure_def,
    Res.bind_eq_ok, Res.ok.injEq] at h
  obtain ⟨b1, h1, b2, h2, rfl⟩ := h
  obtain ⟨K1, hp1⟩ := set_keeps h12 hp h1
  obtain ⟨K2, hp2⟩ := set_keeps (by omega) (by omega) h2
  exact ⟨keeps12_trans K1 K2, by omega⟩

theorem writeU16_keeps {b b' : BytePacketBuffer} {v : Nat} (h12 : 12 ≤ b.pos)
    (h : b.writeU16 v = .ok b') : keeps12 b b' := by
  simp only [BytePacketBuffer.writeU16, Res.bind_def, Res.pure_def,
    Res.bind_eq_ok, Res.ok.injEq] at h
  obtain ⟨b1, h1, b2, h2, rfl⟩ := h
  have K1 := write_keeps h12 h1
  exact keeps12_trans K1 (write_keeps K1.1 h2)

theorem writeU32_keeps {b b' : BytePacketBuffer} {v : Nat} (h12 : 12 ≤ b.pos)
    (h : b.writeU32 v = .ok b') : keeps12 b b' := by
  simp only [BytePacketBuffer.writeU32, Res.bind_def, Res.pure_def,
    Res.bind_eq_ok, Res.ok.injEq] at h
  obtain ⟨b1, h1, b2, h2, b3, h3, b4, h4, rfl⟩ := h
  have K1 := write_keeps h12 h1
  have K2 := keeps12_trans K1 (write_keeps K1.1 h2)
  have K3 := keeps12_trans K2 (write_keeps K2.1 h3)
  exact keeps12_trans K3 (write_keeps K3.1 h4)

theorem writeAll_keeps (bs : List Nat) :
    ∀ {b b' : BytePacketBuffer}, 12 ≤ b.pos →
      writeAll bs b = .ok b' → keeps12 b b' := by
  induction bs with
  | nil =>
    intro b b' h12 h
    obtain rfl := (Res.ok.inj h).symm
    exact keeps12_self h12
  | cons v rest ih =>
    intro b b' h12 h
    simp only [writeAll, Res.bind_def, Res.bind_eq_ok, Res.ok.injEq] at h
    obtain ⟨b1, h1, h2⟩ := h
    have K1 := write_keeps h12 h1
    exact keeps12_trans K1 (ih K1.1 h2)

theorem writeLabels_keeps (ls : List (List Nat)) :
    ∀ {b b' : BytePacketBuffer}, 12 ≤ b.pos →
      writeLabels ls b = .ok b' → keeps12 b b' := by
  induction ls with
  | nil =>
    intro b b' h12 h
    obtain rfl := (Res.ok.inj h).symm
    exact keeps12_self h12
  | cons l rest ih =>
    intro b b' h12 h
    simp only [writeLabels] at h
    split at h
    · exact Res.noConfusion h
    · simp only [Res.bind_def, Res.bind_eq_ok, Res.ok.injEq] at h
      obtain ⟨b1, h1, b2, h2, h3⟩ := h
      have K1 := write_keeps h12 h1
      have K2 := keeps12_trans K1 (writeAll_keeps l K1.1 h2)
      exact keeps12_trans K2 (ih K2.1 h3)

theorem writeQname_keeps {q : List Nat} {b b' : BytePacketBuffer}
    (h12 : 12 ≤ b.pos) (h : writeQname b q = .ok b') : keeps12 b b' :=
  writeLabels_keeps (splitOnDot q) h12 h

theorem questionWrite_keeps {q : DNSQuestion} {b b' : BytePacketBuffer}
    (h12 : 12 ≤ b.pos) (h : q.write b = .ok b') : keeps12 b b' := by
  simp only [DNSQuestion.write, Res.bind_def, Res.pure_def,
    Res.bind_eq_ok, Res.ok.injEq] at h
  obtain ⟨b1, h1, b2, h2, b3, h3, rfl⟩ := h
  have K1 := writeQname_keeps h12 h1
  have K2 := keeps12_trans K1 (writeU16_keeps K1.1 h2)
  exact keeps12_trans K2 (writeU16_keeps K2.1 h3)

theorem recordWrite_keeps {r : DNSRecord} {b b' : BytePacketBuffer} {n : Nat}
    (h12 : 12 ≤ b.pos) (h : r.write b = .ok (n, b')) : keeps12 b b' := by
  cases r with
  | A domain addr ttl =>
    simp only [DNSRecord.write, Res.bind_def, Res.pure_def, Res.bind_eq_ok,
      Res.ok.injEq, Prod.mk.injEq] at h
    obtain ⟨b1, h1, b2, h2, b3, h3, b4, h4, b5, h5, b6, h6, b7, h7, b8, h8,
      b9, h9, hn, rfl⟩ := h
    have K1 := writeQname_keeps h12 h1
    have K2 := keeps12_trans K1 (writeU16_keeps K1.1 h2)
    have K3 := keeps12_trans K2 (writeU16_keeps K2.1 h3)
    have K4 := keeps12_trans K3 (writeU32_keeps K3.1 h4)
    have K5 := keeps12_trans K4 (writeU16_keeps K4.1 h5)
    have K6 := keeps12_trans K5 (write_keeps K5.1 h6)
    have K7 := keeps12_trans K6 (write_keeps K6.1 h7)
    have K8 := keeps12_trans K7 (write_keeps K7.1 h8)
    exact keeps12_trans K8 (write_keeps K8.1 h9)
  | AAAA domain addr ttl =>
    simp only [DNSRecord.write, Res.bind_def, Res.pure_def, Res.bind_eq_ok,
      Res.ok.injEq, Prod.mk.injEq] at h
    obtain ⟨b1, h1, b2, h2, b3, h3, b4, h4, b5, h5, b6, h6, b7, h7, b8, h8,
      b9, h9, b10, h10, b11, h11, b12, h12a, b13, h13, hn, rfl⟩ := h
    have K1 := writeQname_keeps h12 h1
    have K2 := keeps12_trans K1 (writeU16_keeps K1.1 h2)
    have K3 := keeps12_trans K2 (writeU16_keeps K2.1 h3)
    have K4 := keeps12_trans K3 (writeU32_keeps K3.1 h4)
    have K5 := keeps12_trans K4 (writeU32_keeps K4.1 h5)
    have K6 := keeps12_trans K5 (writeU16_keeps K5.1 h6)
    have K7 := keeps12_trans K6 (writeU16_keeps K6.1 h7)
    have K8 := keeps12_trans K7 (writeU16_keeps K7.1 h8)
    have K9 := keeps12_trans K8 (writeU16_keeps K8.1 h9)
    have K10 := keeps12_trans K9 (writeU16_keeps K9.1 h10)
    have K11 := keeps12_trans K10 (writeU16_keeps K10.1 h11)
    have K12 := keeps12_trans K11 (writeU16_keeps K11.1 h12a)
    exact keeps12_trans K12 (writeU16_keeps K12.1 h13)
  | NS domain host ttl =>
    simp only [DNSRecord.write, Res.bind_def, Res.pure_def, Res.bind_eq_ok,
      Res.ok.injEq, Prod.mk.injEq] at h
    obtain ⟨b1, h1, b2, h2, b3, h3, b4, h4, b5, h5, b6, h6, b7, h7, hn, rfl⟩ := h
    have K1 := writeQname_keeps h12 h1
    have K2 := keeps12_trans K1 (writeU16_keeps K1.1 h2)
    have K3 := keeps12_trans K2 (writeU16_keeps K2.1 h3)
    have K4 := keeps12_trans K3 (writeU32_keeps K3.1 h4)
    have K5 := keeps12_trans K4 (writeU16_keeps K4.1 h5)
    have K6 := keeps12_trans K5 (writeQname_keeps K5.1 h6)
    exact keeps12_trans K6 (setU16_keeps K6.1 K4.1 h7).1
  | CNAME domain host ttl =>
    simp only [DNSRecord.write, Res.bind_def, Res.pure_def, Res.bind_eq_ok,
      Res.ok.injEq, Prod.mk.injEq] at h
    obtain ⟨b1, h1, b2, h2, b3, h3, b4, h4, b5, h5, b6, h6, b7, h7, hn, rfl⟩ := h
    have K1 := writeQname_keeps h12 h1
    have K2 := keeps12_trans K1 (writeU16_keeps K1.1 h2)
    have K3 := keeps12_trans K2 (writeU16_keeps K2.1 h3)
    have K4 := keeps12_trans K3 (writeU32_keeps K3.1 h4)
    have K5 := keeps12_trans K4 (writeU16_keeps K4.1 h5)
    have K6 := keeps12_trans K5 (writeQname_keeps K5.1 h6)
    exact keeps12_trans K6 (setU16_keeps K6.1 K4.1 h7).1
  | SRV domain priority weight port host ttl =>
    simp only [DNSRecord.write, Res.bind_def, Res.pure_def, Res.bind_eq_ok,
      Res.ok.injEq, Prod.mk.injEq] at h
    obtain ⟨b1, h1, b2, h2, b3, h3, b4, h4, b5, h5, b6, h6, b7, h7, b8, h8,
      b9, h9, b10, h10, hn, rfl⟩ := h
    have K1 := writeQname_keeps h12 h1
    have K2 := keeps12_trans K1 (writeU16_keeps K1.1 h2)
    have K3 := keeps12_trans K2 (writeU16_keeps K2.1 h3)
    have K4 := keeps12_trans K3 (writeU32_keeps K3.1 h4)
    have K5 := keeps12_trans K4 (writeU16_keeps K4.1 h5)
    have K6 := keeps12_trans K5 (writeU16_keeps K5.1 h6)
    have K7 := keeps12_trans K6 (writeU16_keeps K6.1 h7)
    have K8 := keeps12_trans K7 (writeU16_keeps K7.1 h8)
    have K9 := keeps12_trans K8 (writeQname_keeps K8.1 h9)
    exact keeps12_trans K9 (setU16_keeps K9.1 K4.1 h10).1
  | MX domain priority host ttl =>
    simp only [DNSRecord.write, Res.bind_def, Res.pure_def, Res.bind_eq_ok,
      Res.ok.injEq, Prod.mk.injEq] at h
    obtain ⟨b1, h1, b2, h2, b3, h3, b4, h4, b5, h5, b6, h6, b7, h7, b8, h8,
      hn, rfl⟩ := h
    have K1 := writeQname_keeps h12 h1
    have K2 := keeps12_trans K1 (writeU16_keeps K1.1 h2)
    have K3 := keeps12_trans K2 (writeU16_keeps K2.1 h3)
    have K4 := keeps12_trans K3 (writeU32_keeps K3.1 h4)
    have K5 := keeps12_trans K4 (writeU16_keeps K4.1 h5)
    have K6 := keeps12_trans K5 (writeU16_keeps K5.1 h6)
    have K7 := keeps12_trans K6 (writeQname_keeps K6.1 h7)
    exact keeps12_trans K7 (setU16_keeps K7.1 K4.1 h8).1
  | SOA domain m_name r_name serial refresh retry expire minimum ttl =>
    simp only [DNSRecord.write, Res.bind_def, Res.pure_def, Res.bind_eq_ok,
      Res.ok.injEq, Prod.mk.injEq] at h
    obtain ⟨b1, h1, b2, h2, b3, h3, b4, h4, b5, h5, b6, h6, b7, h7, b8, h8,
      b9, h9, b10, h10, b11, h11, b12, h12a, b13, h13, hn, rfl⟩ := h
    have K1 := writeQname_keeps h12 h1
    have K2 := keeps12_trans K1 (writeU16_keeps K1.1 h2)
    have K3 := keeps12_trans K2 (writeU16_keeps K2.1 h3)
    have K4 := keeps12_trans K3 (writeU32_keeps K3.1 h4)
    have K5 := keeps12_trans K4 (writeU16_keeps K4.1 h5)
    have K6 := keeps12_trans K5 (writeQname_keeps K5.1 h6)
    have K7 := keeps12_trans K6 (writeQname_keeps K6.1 h7)
    have K8 := keeps12_trans K7 (writeU32_keeps K7.1 h8)
    have K9 := keeps12_trans K8 (writeU32_keeps K8.1 h9)
    have K10 := keeps12_trans K9 (writeU32_keeps K9.1 h10)
    have K11 := keeps12_trans K10 (writeU32_keeps K10.1 h11)
    have K12 := keeps12_trans K11 (writeU32_keeps K11.1 h12a)
    exact keeps12_trans K12 (setU16_keeps K12.1 K4.1 h13).1
  | TXT domain data ttl =>
    simp only [DNSRecord.write, Res.bind_def, Res.pure_def, Res.bind_eq_ok,
      Res.ok.injEq, Prod.mk.injEq] at h
    obtain ⟨b1, h1, b2, h2, b3, h3, b4, h4, b5, h5, b6, h6, hn, rfl⟩ := h
    have K1 := writeQname_keeps h12 h1
    have K2 := keeps12_trans K1 (writeU16_keeps K1.1 h2)
    have K3 := keeps12_trans K2 (writeU16_keeps K2.1 h3)
    have K4 := keeps12_trans K3 (writeU32_keeps K3.1 h4)
    have K5 := keeps12_trans K4 (writeU16_keeps K4.1 h5)
    exact keeps12_trans K5 (writeAll_keeps data K5.1 h6)
  | OPT packet_len flags data =>
    simp only [DNSRecord.write, Res.pure_def, Res.ok.injEq,
      Prod.mk.injEq] at h
    obtain ⟨hn, rfl⟩ := h
    exact keeps12_self h12
  | UNKNOWN domain q_type data_len ttl =>
    simp only [DNSRecord.write, Res.pure_def, Res.ok.injEq,
      Prod.mk.injEq] at h
    obtain ⟨hn, rfl⟩ := h
    exact keeps12_self h12

theorem writeQuestionList_keeps (qs : List DNSQuestion) :
    ∀ {b b' : BytePacketBuffer}, 12 ≤ b.pos →
      writeQuestionList qs b = .ok b' → keeps12 b b' := by
  induction qs with
  | nil =>
    intro b b' h12 h
    obtain rfl := (Res.ok.inj h).symm
    exact keeps12_self h12
  | cons q rest ih =>
    intro b b' h12 h
    simp only [writeQuestionList, Res.bind_def, Res.bind_eq_ok] at h
    obtain ⟨b1, h1, h2⟩ := h
    have K1 := questionWrite_keeps h12 h1
    exact keeps12_trans K1 (ih K1.1 h2)

theorem writeRecordList_keeps (rs : List DNSRecord) :
    ∀ {b b' : BytePacketBuffer}, 12 ≤ b.pos →
      writeRecordList rs b = .ok b' → keeps12 b b' := by
  induction rs with
  | nil =>
    intro b b' h12 h
    obtain rfl := (Res.ok.inj h).symm
    exact keeps12_self h12
  | cons r rest ih =>
    intro b b' h12 h
    simp only [writeRecordList, Res.bind_def, Res.bind_eq_ok] at h
    obtain ⟨⟨n1, b1⟩, h1, h2⟩ := h
    have K1 := recordWrite_keeps h12 h1
    exact keeps12_trans K1 (ih K1.1 h2)

theorem take12_eq_of_ptwise {l1 l2 : List Nat}
    (h : ∀ i, i < 12 → l1[i]? = l2[i]?) : l1.take 12 = l2.take 12 := by
  apply List.ext_getElem?
  intro i
  by_cases hi : i < 12
  · rw [List.getElem?_take_of_lt hi, List.getElem?_take_of_lt hi]
    exact h i hi
  · rw [List.getElem?_eq_none, List.getElem?_eq_none]
    · have := l2.length_take 12
      omega
    · have := l1.length_take 12
      omega

/-- C8: `DNSPacket::write` first overwrites the header's four counts
with the actual section lengths — the result does not depend on the
counts stored before the call — and on success the 12 header bytes at
the start of the emitted buffer are exactly `DNSHeader::write`'s bytes
for the recomputed header (the section writes that follow, in the fixed
order questions, answers, authorities, additional, never touch them). -/
theorem c8_write_counts (p : DNSPacket)
    (h1 : p.questions.length < 65536) (h2 : p.answers.length < 65536)
    (h3 : p.authorities.length < 65536) (h4 : p.additional.length < 65536) :
    (∀ c1 c2 c3 c4,
      DNSPacket.write { p with header := { p.header with questions := c1, answers := c2, authoritative_entries := c3, additional_entries := c4 } } BytePacketBuffer.new =
      DNSPacket.write p BytePacketBuffer.new) ∧
    (∀ p' b', DNSPacket.write p BytePacketBuffer.new = .ok (p', b') →
      (p'.header.questions = p.questions.length ∧
       p'.header.answers = p.answers.length ∧
       p'.header.authoritative_entries = p.authorities.length ∧
       p'.header.additional_entries = p.additional.length) ∧
      b'.buf.take 12 = headerBytes p'.header) := by
  constructor
  · intro c1 c2 c3 c4
    rfl
  · intro p' b' h
    simp only [DNSPacket.write, Res.bind_def, Res.pure_def, Res.bind_eq_ok,
      Res.ok.injEq, Prod.mk.injEq] at h
    obtain ⟨bh, hbh, bq, hbq, ba, hba, bau, hbau, bad, hbad, rfl, rfl⟩ := h
    rw [headerWrite_new] at hbh
    obtain rfl := Res.ok.inj hbh
    refine ⟨⟨?_, ?_, ?_, ?_⟩, ?_⟩
    · exact Nat.mod_eq_of_lt h1
    · exact Nat.mod_eq_of_lt h2
    · exact Nat.mod_eq_of_lt h3
    · exact Nat.mod_eq_of_lt h4
    · have Kq := writeQuestionList_keeps p.questions (Nat.le_refl 12) hbq
      have Ka := keeps12_trans Kq
        (writeRecordList_keeps p.answers Kq.1 hba)
      have Kau := keeps12_trans Ka
        (writeRecordList_keeps p.authorities Ka.1 hbau)
      have Kad := keeps12_trans Kau
        (writeRecordList_keeps p.additional Kau.1 hbad)
      have htake := take12_eq_of_ptwise Kad.2
      rw [htake]
      exact List.take_left' (by simp [headerBytes])

/-- Witness for C8 at a concrete packet (one question, three stored
counts deliberately wrong before the call). -/
theorem c8_write_counts_witness :
    (DNSPacket.write { c1Packet with header := { c1Packet.header with questions := 7, answers := 7, authoritative_entries := 7, additional_entries := 7 } } BytePacketBuffer.new =
      DNSPacket.write c1Packet BytePacketBuffer.new) ∧
    (({ buf := [0, 0, 0, 0, 0, 1, 0, 0, 0, 0, 0, 0, 3, 97, 98, 99, 0, 1, 0, 1]
          ++ List.replicate 492 0, pos := 20 } :
        BytePacketBuffer).buf.take 12 = headerBytes c1Packet.header) := by
  have h := c8_write_counts c1Packet (by decide) (by decide) (by decide)
    (by decide)
  refine ⟨h.1 7 7 7 7, ?_⟩
  have h2 := h.2 c1Packet
    { buf := [0, 0, 0, 0, 0, 1, 0, 0, 0, 0, 0, 0, 3, 97, 98, 99, 0, 1, 0, 1]
        ++ List.replicate 492 0, pos := 20 } (by decide)
  exact h2.2
